import Mathlib

/-!
Verification development for the co-mention network dashboard.

The definitions below are a shallow embedding of the client-side
"Visual Graph Exploration Engine": the graph builder inside the
NetworkGraph component, the viewport (viewBox) zoom/pan handlers, the
single/double click disambiguation, the stale-response rejection of the
data-fetch effects, and the on-demand section-breakdown cache of the
NameMentionChart component.

Modelling conventions:
- JavaScript numbers used as counts are modelled as Nat.
- JavaScript numbers used as continuous coordinates (viewBox geometry)
  are modelled as exact rationals; Math.log2 is modelled as the real
  logarithm in base 2 (Real.logb 2).
- A JS Map is modelled as an association list with last-set-wins lookup;
  a JS Set is modelled as a duplicate-free list in insertion order.
- The d3-force simulation is an external library dependency (the spec
  treats the physics engine as a pluggable strategy); node positions are
  outside the embedding, which keeps the id/name/mentions/color/label
  fields of each built node and the full edge list.
-/

namespace EpsteinDashboard

-- ══════════════════════════════════════════════════════════════════
-- Data model (src/lib/types: EntityMentionCount, CoMention,
-- SectionBreakdown) restricted to the fields the dashboard reads.
-- ══════════════════════════════════════════════════════════════════

structure EntityMentionCount where
  entity_id : String
  canonical_name : String
  total_mentions : Nat
  unique_documents : Nat
  sections : List String
deriving Repr, DecidableEq

structure CoMention where
  entity_a_id : String
  entity_a_name : String
  entity_b_id : String
  entity_b_name : String
  co_occurrence_count : Nat
  shared_documents : Nat
deriving Repr, DecidableEq

/-- Row of the per-entity section breakdown RPC. The first field is
named `section` in the source; that word is a Lean keyword, so the
field is called `sec` here. -/
structure SectionBreakdown where
  sec : String
  mention_count : Nat
deriving Repr, DecidableEq

-- ══════════════════════════════════════════════════════════════════
-- Small container helpers shared by the embeddings: JS Set add/delete
-- on duplicate-free lists kept in insertion order.
-- ══════════════════════════════════════════════════════════════════

/-- JS `Set.add`: append if absent (insertion order preserved). -/
def setAdd (l : List String) (x : String) : List String :=
  if x ∈ l then l else l ++ [x]

/-- JS `Set.delete` / `Map.delete` on a duplicate-free key list. -/
def setDelete (l : List String) (x : String) : List String :=
  l.filter (fun y => decide (y ≠ x))

-- ══════════════════════════════════════════════════════════════════
-- Graph Builder (NetworkGraph, graph build useMemo)
-- ══════════════════════════════════════════════════════════════════

/-- The `entityMap` built by `for (const e of rawEntities)
entityMap.set(e.entity_id, e)`: later rows with the same id win. -/
def entityMap (rawEntities : List EntityMentionCount) (id : String) :
    Option EntityMentionCount :=
  rawEntities.foldl (fun acc e => if e.entity_id = id then some e else acc) none

/-- The admission test the builder applies to one endpoint id:
`const a = entityMap.get(id); a && a.total_mentions >= minMentions`. -/
def meetsMinMentions (rawEntities : List EntityMentionCount)
    (minMentions : Nat) (id : String) : Bool :=
  match entityMap rawEntities id with
  | some e => decide (minMentions ≤ e.total_mentions)
  | none => false

/-- One iteration of the `for (const cm of rawCoMentions)` loop that
fills the `nodeIds` set: each endpoint is added when the entity at that
endpoint exists and meets `minMentions`, independently of the other
endpoint. -/
def addPairNodes (rawEntities : List EntityMentionCount) (minMentions : Nat)
    (ids : List String) (cm : CoMention) : List String :=
  let ids1 :=
    if meetsMinMentions rawEntities minMentions cm.entity_a_id then
      setAdd ids cm.entity_a_id
    else ids
  if meetsMinMentions rawEntities minMentions cm.entity_b_id then
    setAdd ids1 cm.entity_b_id
  else ids1

/-- The `nodeIds` set, in insertion order. -/
def nodeIds (rawEntities : List EntityMentionCount)
    (rawCoMentions : List CoMention) (minMentions : Nat) : List String :=
  rawCoMentions.foldl (addPairNodes rawEntities minMentions) []

/-- `Math.max(...nodeIds.map(id => entityMap.get(id)?.total_mentions || 0), 1)`. -/
def maxMentions (rawEntities : List EntityMentionCount)
    (rawCoMentions : List CoMention) (minMentions : Nat) : Nat :=
  ((nodeIds rawEntities rawCoMentions minMentions).map (fun id =>
    match entityMap rawEntities id with
    | some ent => ent.total_mentions
    | none => 0)).foldr max 1

/-- SECTION_COLORS lookup table. -/
def SECTION_COLORS : List (String × String) :=
  [("court", "#D4A843"), ("doj", "#4a8bc2"), ("foia", "#5b8a72"),
   ("house", "#7c6e9b"), ("fbi", "#c25d4a")]

/-- Substring occurrence test, modelling `String.prototype.includes`. -/
def strIncludes (s pat : String) : Bool :=
  (List.range (s.length + 1)).any (fun i => (s.drop i).startsWith pat)

/-- `getNodeColor`: first color whose key occurs in some (lowercased)
section label, with a grey fallback. -/
def getNodeColor (sections : List String) : String :=
  match sections.findSome? (fun s =>
    SECTION_COLORS.findSome? (fun kc =>
      if strIncludes s.toLower kc.1 then some kc.2 else none)) with
  | some c => c
  | none => "#8892a4"

/-- A built graph node. The source also stores a real-valued `radius`
(see `nodeRadius` below, a function of `mentions` and the snapshot
`maxMentions`) and initial x/y coordinates consumed by the external
d3-force simulation; the combinatorial fields are kept here. -/
structure GraphNode where
  id : String
  name : String
  mentions : Nat
  color : String
  showLabel : Bool
deriving Repr, DecidableEq

/-- A built graph edge (`GraphLink`). The source additionally keeps
`source`/`target` fields initialised to the same two ids for the
simulation. -/
structure GraphLink where
  sourceId : String
  targetId : String
  coOccurrences : Nat
  sharedDocs : Nat
deriving Repr, DecidableEq

structure Graph where
  nodes : List GraphNode
  links : List GraphLink
deriving Repr, DecidableEq

/-- The `for (const id of nodeIds)` node-construction loop: ids whose
entity lookup fails are skipped (`if (!ent) continue`). -/
def buildGraphNodes (rawEntities : List EntityMentionCount)
    (rawCoMentions : List CoMention) (minMentions : Nat) : List GraphNode :=
  (nodeIds rawEntities rawCoMentions minMentions).filterMap (fun id =>
    match entityMap rawEntities id with
    | none => none
    | some ent =>
        some { id := id
               name := ent.canonical_name
               mentions := ent.total_mentions
               color := getNodeColor ent.sections
               showLabel := decide (50 ≤ ent.total_mentions) })

/-- `graphLinks`: raw pairs whose two endpoints are both in the
already-computed `nodeIds` set, capped at 500, mapped to links. -/
def buildGraphLinks (rawEntities : List EntityMentionCount)
    (rawCoMentions : List CoMention) (minMentions : Nat) : List GraphLink :=
  ((rawCoMentions.filter (fun cm =>
      decide (cm.entity_a_id ∈ nodeIds rawEntities rawCoMentions minMentions) &&
      decide (cm.entity_b_id ∈ nodeIds rawEntities rawCoMentions minMentions))).take 500).map
    (fun cm =>
      { sourceId := cm.entity_a_id
        targetId := cm.entity_b_id
        coOccurrences := cm.co_occurrence_count
        sharedDocs := cm.shared_documents })

/-- The graph build `useMemo` body: early return on an empty entity
list, and again when no node was admitted. -/
def buildGraph (rawEntities : List EntityMentionCount)
    (rawCoMentions : List CoMention) (minMentions : Nat) : Graph :=
  if rawEntities.isEmpty then { nodes := [], links := [] }
  else if (buildGraphNodes rawEntities rawCoMentions minMentions).isEmpty then
    { nodes := [], links := [] }
  else
    { nodes := buildGraphNodes rawEntities rawCoMentions minMentions
      links := buildGraphLinks rawEntities rawCoMentions minMentions }

/-- `radius: 5 + (logScale / maxLog) * 18` where
`logScale = Math.log2(mentions + 1)` and
`maxLog = Math.log2(maxMentions + 1)`; `Math.log2` is modelled as the
real base-2 logarithm. -/
noncomputable def nodeRadius (mentions maxM : Nat) : ℝ :=
  5 + (Real.logb 2 (mentions + 1) / Real.logb 2 (maxM + 1)) * 18

/-- Modelled from the spec: the backend RPC `get_co_mentions` (invoked
by `getCoMentions` in the queries module) is not part of the sources;
per the spec it returns the co-occurrence pairs whose co-occurrence
count is at least `minCoOccurrences`, bounded to the `limit` most
significant pairs. Relative order of the returned rows does not affect
any claim, so the model returns qualifying rows in input order. -/
def getCoMentions (allPairs : List CoMention) (minCoOccurrences : Nat)
    (limit : Nat) : List CoMention :=
  (allPairs.filter (fun cm => decide (minCoOccurrences ≤ cm.co_occurrence_count))).take limit

-- ══════════════════════════════════════════════════════════════════
-- Click disambiguation (NetworkGraph.handleNodeClick).
-- The component keeps a `clickTimeouts` map from node id to a pending
-- 300ms timeout; here the map keys, the selected node and the sequence
-- of `router.push` navigation targets form the state. A `fire` event
-- is the expiry of a pending timeout: `clearTimeout` guarantees a
-- cleared timeout never fires, which the `fire` guard encodes.
-- ══════════════════════════════════════════════════════════════════

structure ClickState where
  clickTimeouts : List String
  selectedNode : Option String
  navigations : List String
deriving Repr, DecidableEq

inductive ClickEvent where
  | click (nodeId : String)
  | fire (nodeId : String)
deriving Repr, DecidableEq

/-- `handleNodeClick` plus the body of its scheduled timeout. A click
with a pending timeout for the same node clears it and navigates; a
click without one schedules a timeout; a firing timeout removes itself
and toggles the selection. -/
def clickStep (s : ClickState) : ClickEvent → ClickState
  | .click n =>
    if n ∈ s.clickTimeouts then
      { s with clickTimeouts := setDelete s.clickTimeouts n
               navigations := s.navigations ++ [n] }
    else
      { s with clickTimeouts := setAdd s.clickTimeouts n }
  | .fire n =>
    if n ∈ s.clickTimeouts then
      { s with clickTimeouts := setDelete s.clickTimeouts n
               selectedNode := if s.selectedNode = some n then none else some n }
    else s

def runClicks (s : ClickState) (es : List ClickEvent) : ClickState :=
  es.foldl clickStep s

-- ══════════════════════════════════════════════════════════════════
-- Stale-response rejection.
-- Two mechanisms in the sources: NameMentionChart.fetchData tags each
-- request with an incremented `filterVersionRef` and ignores
-- non-current versions; the NetworkGraph fetch effect closes over a
-- `cancelled` flag that the effect cleanup sets when a newer effect
-- run supersedes it. Both are modelled as generation counters: a
-- response carries the generation it was issued under and is applied
-- only if that generation is still current.
-- ══════════════════════════════════════════════════════════════════

structure ChartFetchState where
  filterVersion : Nat
  entities : List EntityMentionCount
  totalCount : Nat
  hasMore : Bool
  loading : Bool
deriving Repr, DecidableEq

inductive ChartFetchEvent where
  | issue
  | resolve (v : Nat) (data : List EntityMentionCount) (count : Nat)
  | reject (v : Nat)
deriving Repr, DecidableEq

/-- `fetchData`: `issue` is the synchronous prefix (increment
`filterVersionRef`, `setLoading(true)`, `setHasMore(true)`); `resolve`
and `reject` are the request outcome, guarded by
`filterVersionRef.current === v` both in the body and in the
`finally`. -/
def chartFetchStep (s : ChartFetchState) : ChartFetchEvent → ChartFetchState
  | .issue =>
    { s with filterVersion := s.filterVersion + 1, loading := true, hasMore := true }
  | .resolve v data count =>
    if s.filterVersion = v then
      { s with entities := data
               totalCount := count
               hasMore := decide (data.length < count)
               loading := false }
    else s
  | .reject v =>
    if s.filterVersion = v then { s with loading := false } else s

def runChartFetch (s : ChartFetchState) (es : List ChartFetchEvent) : ChartFetchState :=
  es.foldl chartFetchStep s

structure GraphFetchState where
  generation : Nat
  rawCoMentions : List CoMention
  rawEntities : List EntityMentionCount
  loading : Bool
deriving Repr, DecidableEq

inductive GraphFetchEvent where
  | issue
  | resolve (g : Nat) (cm : List CoMention) (ents : List EntityMentionCount)
  | reject (g : Nat)
deriving Repr, DecidableEq

/-- The NetworkGraph fetch effect: `issue` starts a new effect run
(superseding all earlier runs, whose `cancelled` flags the cleanup has
set) and `setLoading(true)`; a resolution from run `g` stores the raw
rows and clears `loading` only if run `g` was not cancelled, and a
rejection clears `loading` only if not cancelled. -/
def graphFetchStep (s : GraphFetchState) : GraphFetchEvent → GraphFetchState
  | .issue => { s with generation := s.generation + 1, loading := true }
  | .resolve g cm ents =>
    if s.generation = g then
      { s with rawCoMentions := cm, rawEntities := ents, loading := false }
    else s
  | .reject g =>
    if s.generation = g then { s with loading := false } else s

def runGraphFetch (s : GraphFetchState) (es : List GraphFetchEvent) : GraphFetchState :=
  es.foldl graphFetchStep s

-- ══════════════════════════════════════════════════════════════════
-- On-demand section-breakdown cache (NameMentionChart:
-- breakdownCacheRef / pendingRef, the visible-ids batch effect and
-- handleRowMouseEnter). Both code paths gate an underlying
-- getEntitySectionBreakdown fetch on the id being neither cached nor
-- pending, add the id to the pending set before fetching, store the
-- result in the cache on success, and remove the id from the pending
-- set on success and on failure.
-- ══════════════════════════════════════════════════════════════════

/-- JS `Map.has` on an association list. -/
def mapHas (m : List (String × List SectionBreakdown)) (k : String) : Bool :=
  m.any (fun e => e.1 == k)

/-- JS `Map.set`: overwrite in place when present, append otherwise. -/
def mapSet (m : List (String × List SectionBreakdown)) (k : String)
    (v : List SectionBreakdown) : List (String × List SectionBreakdown) :=
  if mapHas m k then m.map (fun e => if e.1 == k then (k, v) else e)
  else m ++ [(k, v)]

structure DetailCacheState where
  cache : List (String × List SectionBreakdown)
  pending : List String
  fetchesIssued : List String
deriving Repr, DecidableEq

inductive DetailEvent where
  | request (id : String)
  | succeed (id : String) (data : List SectionBreakdown)
  | fail (id : String)
deriving Repr, DecidableEq

/-- `request` is a caller (row hover, or one id of the visible-window
batch) asking for a breakdown: a fetch is issued only when the id is
neither cached nor pending. `succeed`/`fail` are the outcome callbacks
of an issued fetch. -/
def detailStep (s : DetailCacheState) : DetailEvent → DetailCacheState
  | .request id =>
    if mapHas s.cache id = false ∧ id ∉ s.pending then
      { s with pending := setAdd s.pending id
               fetchesIssued := s.fetchesIssued ++ [id] }
    else s
  | .succeed id data =>
    { s with cache := mapSet s.cache id data
             pending := setDelete s.pending id }
  | .fail id =>
    { s with pending := setDelete s.pending id }

def runDetail (s : DetailCacheState) (es : List DetailEvent) : DetailCacheState :=
  es.foldl detailStep s

-- ══════════════════════════════════════════════════════════════════
-- Viewport (NetworkGraph viewBox state, wheel zoom, pan, reset).
-- Coordinates are exact rationals. The wheel handler computes the
-- cursor point from client coordinates as
-- mx = x + ((clientX - left) / width) * w; the client-side ratio is
-- the rational parameter rx (likewise ry). The pan handler computes
-- dx, dy from mouse deltas scaled by w / rect.width; those deltas are
-- the rational parameters dx, dy.
-- ══════════════════════════════════════════════════════════════════

def VBOX_W : ℚ := 1000
def VBOX_H : ℚ := 600

structure ViewBoxState where
  x : ℚ
  y : ℚ
  w : ℚ
  h : ℚ
deriving Repr, DecidableEq

def initialViewBox : ViewBoxState := { x := 0, y := 0, w := VBOX_W, h := VBOX_H }

inductive ViewEvent where
  | wheel (zoomOut : Bool) (rx ry : ℚ)
  | pan (dx dy : ℚ)
  | reset
deriving Repr, DecidableEq

/-- The three viewBox updates: the wheel handler (factor 1.06 when
`deltaY > 0`, else 0.94, width clamped to [200, VBOX_W * 4], height to
[120, VBOX_H * 4], origin shifted to keep the cursor point fixed), the
pan branch of `handleMouseMove` (offsets only), and `resetView` (which
also clears the selected node, handled by the interaction state). -/
def viewStep (prev : ViewBoxState) : ViewEvent → ViewBoxState
  | .wheel zoomOut rx ry =>
    let mx := prev.x + rx * prev.w
    let my := prev.y + ry * prev.h
    let factor : ℚ := if zoomOut then 106 / 100 else 94 / 100
    let newW := max 200 (min (VBOX_W * 4) (prev.w * factor))
    let newH := max 120 (min (VBOX_H * 4) (prev.h * factor))
    { x := mx - (mx - prev.x) * (newW / prev.w)
      y := my - (my - prev.y) * (newH / prev.h)
      w := newW
      h := newH }
  | .pan dx dy => { prev with x := prev.x - dx, y := prev.y - dy }
  | .reset => initialViewBox

/-- The viewBox states reachable from the initial state through wheel,
pan and reset events. -/
inductive ReachableView : ViewBoxState → Prop where
  | init : ReachableView initialViewBox
  | step (vb : ViewBoxState) (e : ViewEvent) :
      ReachableView vb → ReachableView (viewStep vb e)

/-- The viewport invariant: 3/5 aspect and the zoom clamp bounds. -/
def ViewInv (vb : ViewBoxState) : Prop :=
  vb.h = 3 / 5 * vb.w ∧ 200 ≤ vb.w ∧ vb.w ≤ 4000 ∧ 120 ≤ vb.h ∧ vb.h ≤ 2400

-- ══════════════════════════════════════════════════════════════════
-- Concrete inputs used by counterexamples and witnesses.
-- ══════════════════════════════════════════════════════════════════

def entA : EntityMentionCount := ⟨"A", "Alpha", 100, 40, []⟩
def entB : EntityMentionCount := ⟨"B", "Beta", 50, 20, []⟩
def entC : EntityMentionCount := ⟨"C", "Gamma", 5, 2, []⟩

def pairAB : CoMention := ⟨"A", "Alpha", "B", "Beta", 10, 8⟩
def pairBC : CoMention := ⟨"B", "Beta", "C", "Gamma", 1, 1⟩
def pairAC : CoMention := ⟨"A", "Alpha", "C", "Gamma", 10, 8⟩
def pairBA : CoMention := ⟨"B", "Beta", "A", "Alpha", 10, 8⟩

/-- The node the builder produces for entity A in the witness
snapshots below. -/
def wNodeA : GraphNode := ⟨"A", "Alpha", 100, "#8892a4", true⟩

/-- The node the builder produces for entity B in the witness
snapshots below. -/
def wNodeB : GraphNode := ⟨"B", "Beta", 50, "#8892a4", true⟩

/-- Boolean test that a built link spans the unordered pair {a, b}. -/
def linkSpans (l : GraphLink) (a b : String) : Bool :=
  (l.sourceId == a && l.targetId == b) || (l.sourceId == b && l.targetId == a)

/-- Boolean test that a raw pair covers the unordered pair {a, b}. -/
def pairSpans (cm : CoMention) (a b : String) : Bool :=
  (cm.entity_a_id == a && cm.entity_b_id == b) ||
  (cm.entity_a_id == b && cm.entity_b_id == a)

-- ══════════════════════════════════════════════════════════════════
-- Helper lemmas
-- ══════════════════════════════════════════════════════════════════

theorem mem_setAdd {l : List String} {x a : String} :
    a ∈ setAdd l x ↔ a ∈ l ∨ a = x := by
  unfold setAdd
  split
  · rename_i h
    constructor
    · exact Or.inl
    · rintro (ha | rfl)
      · exact ha
      · exact h
  · simp

theorem setAdd_of_not_mem {l : List String} {x : String} (h : x ∉ l) :
    setAdd l x = l ++ [x] := by
  simp [setAdd, h]

theorem setDelete_of_not_mem {l : List String} {x : String} (h : x ∉ l) :
    setDelete l x = l := by
  unfold setDelete
  refine List.filter_eq_self.mpr ?_
  intro a ha
  simp only [ne_eq, decide_eq_true_eq]
  rintro rfl
  exact h ha

theorem setDelete_append_self {l : List String} {x : String} (h : x ∉ l) :
    setDelete (l ++ [x]) x = l := by
  unfold setDelete
  rw [List.filter_append]
  have h2 : List.filter (fun y => decide (y ≠ x)) [x] = [] := by simp
  rw [h2, List.append_nil]
  exact setDelete_of_not_mem h

theorem mem_addPairNodes {e : List EntityMentionCount} {m : Nat}
    {ids : List String} {cm : CoMention} {a : String} :
    a ∈ addPairNodes e m ids cm ↔
      a ∈ ids ∨ (meetsMinMentions e m a = true ∧
        (cm.entity_a_id = a ∨ cm.entity_b_id = a)) := by
  unfold addPairNodes
  by_cases ha : meetsMinMentions e m cm.entity_a_id = true <;>
    by_cases hb : meetsMinMentions e m cm.entity_b_id = true <;>
      simp only [ha, hb, if_true, if_false, mem_setAdd, Bool.false_eq_true,
        if_neg, reduceIte] <;>
    constructor
  · rintro ((h | rfl) | rfl)
    · exact Or.inl h
    · exact Or.inr ⟨ha, Or.inl rfl⟩
    · exact Or.inr ⟨hb, Or.inr rfl⟩
  · rintro (h | ⟨hm, (rfl | rfl)⟩)
    · exact Or.inl (Or.inl h)
    · exact Or.inl (Or.inr rfl)
    · exact Or.inr rfl
  · rintro (h | rfl)
    · exact Or.inl h
    · exact Or.inr ⟨ha, Or.inl rfl⟩
  · rintro (h | ⟨hm, (rfl | rfl)⟩)
    · exact Or.inl h
    · exact Or.inr rfl
    · exact absurd hm hb
  · rintro (h | rfl)
    · exact Or.inl h
    · exact Or.inr ⟨hb, Or.inr rfl⟩
  · rintro (h | ⟨hm, (rfl | rfl)⟩)
    · exact Or.inl h
    · exact absurd hm ha
    · exact Or.inr rfl
  · exact Or.inl
  · rintro (h | ⟨hm, (rfl | rfl)⟩)
    · exact h
    · exact absurd hm ha
    · exact absurd hm hb

theorem mem_foldl_addPairNodes (e : List EntityMentionCount) (m : Nat)
    (l : List CoMention) (acc : List String) (a : String) :
    a ∈ l.foldl (addPairNodes e m) acc ↔
      a ∈ acc ∨ ∃ cm ∈ l, meetsMinMentions e m a = true ∧
        (cm.entity_a_id = a ∨ cm.entity_b_id = a) := by
  induction l generalizing acc with
  | nil => simp
  | cons c t ih =>
    rw [List.foldl_cons, ih, mem_addPairNodes]
    constructor
    · rintro ((h | h) | ⟨cm, hcm, h⟩)
      · exact Or.inl h
      · exact Or.inr ⟨c, List.mem_cons_self c t, h⟩
      · exact Or.inr ⟨cm, List.mem_cons_of_mem c hcm, h⟩
    · rintro (h | ⟨cm, hcm, h⟩)
      · exact Or.inl (Or.inl h)
      · rcases List.mem_cons.mp hcm with rfl | hmem
        · exact Or.inl (Or.inr h)
        · exact Or.inr ⟨cm, hmem, h⟩

theorem mem_nodeIds {e : List EntityMentionCount} {p : List CoMention}
    {m : Nat} {a : String} :
    a ∈ nodeIds e p m ↔ meetsMinMentions e m a = true ∧
      ∃ cm ∈ p, cm.entity_a_id = a ∨ cm.entity_b_id = a := by
  unfold nodeIds
  rw [mem_foldl_addPairNodes]
  simp only [List.not_mem_nil, false_or]
  constructor
  · rintro ⟨cm, hcm, hme, hend⟩
    exact ⟨hme, cm, hcm, hend⟩
  · rintro ⟨hme, cm, hcm, hend⟩
    exact ⟨cm, hcm, hme, hend⟩

theorem exists_entity_of_meets {e : List EntityMentionCount} {m : Nat}
    {id : String} (h : meetsMinMentions e m id = true) :
    ∃ ent, entityMap e id = some ent ∧ m ≤ ent.total_mentions := by
  unfold meetsMinMentions at h
  cases hm : entityMap e id with
  | none => rw [hm] at h; exact absurd h (by simp)
  | some ent =>
    rw [hm] at h
    simp only [decide_eq_true_eq] at h
    exact ⟨ent, rfl, h⟩

theorem mem_map_id_buildGraphNodes {e : List EntityMentionCount}
    {p : List CoMention} {m : Nat} {x : String} :
    x ∈ (buildGraphNodes e p m).map GraphNode.id ↔ x ∈ nodeIds e p m := by
  unfold buildGraphNodes
  rw [List.mem_map]
  constructor
  · rintro ⟨n, hn, rfl⟩
    rcases List.mem_filterMap.mp hn with ⟨id, hid, hf⟩
    cases hm : entityMap e id with
    | none => rw [hm] at hf; cases hf
    | some ent =>
      rw [hm] at hf
      cases hf
      exact hid
  · intro hx
    have hme : meetsMinMentions e m x = true := (mem_nodeIds.mp hx).1
    rcases exists_entity_of_meets hme with ⟨ent, hent, _⟩
    refine ⟨{ id := x, name := ent.canonical_name,
              mentions := ent.total_mentions,
              color := getNodeColor ent.sections,
              showLabel := decide (50 ≤ ent.total_mentions) }, ?_, rfl⟩
    exact List.mem_filterMap.mpr ⟨x, hx, by rw [hent]⟩

theorem one_le_foldr_max (l : List Nat) : 1 ≤ l.foldr max 1 := by
  induction l with
  | nil => exact le_refl 1
  | cons a t ih => exact le_trans ih (le_max_right a _)

theorem one_le_maxMentions (e : List EntityMentionCount)
    (p : List CoMention) (m : Nat) : 1 ≤ maxMentions e p m :=
  one_le_foldr_max _

theorem mapHas_mapSet_self (mp : List (String × List SectionBreakdown))
    (k : String) (v : List SectionBreakdown) :
    mapHas (mapSet mp k v) k = true := by
  unfold mapSet
  by_cases h : mapHas mp k = true
  · rw [if_pos h]
    unfold mapHas at h ⊢
    rcases List.any_eq_true.mp h with ⟨el, hel, heq⟩
    refine List.any_eq_true.mpr ⟨(k, v), ?_, by simp⟩
    refine List.mem_map.mpr ⟨el, hel, ?_⟩
    rw [if_pos heq]
  · rw [if_neg h]
    unfold mapHas
    exact List.any_eq_true.mpr ⟨(k, v), by simp, by simp⟩

theorem min_clamp_scale (X : ℚ) : min 2400 (3 / 5 * X) = 3 / 5 * min 4000 X := by
  rcases le_total X 4000 with h | h
  · rw [min_eq_right h, min_eq_right (by linarith)]
  · rw [min_eq_left h, min_eq_left (by linarith)]
    norm_num

theorem max_clamp_scale (Y : ℚ) : max 120 (3 / 5 * Y) = 3 / 5 * max 200 Y := by
  rcases le_total Y 200 with h | h
  · rw [max_eq_left (by linarith), max_eq_left (by linarith)]
    norm_num
  · rw [max_eq_right (by linarith), max_eq_right h]

theorem initialViewBox_inv : ViewInv initialViewBox := by
  refine ⟨?_, ?_, ?_, ?_, ?_⟩ <;> norm_num [ViewInv, initialViewBox, VBOX_W, VBOX_H]

theorem viewStep_preserves_inv {vb : ViewBoxState} (hv : ViewInv vb)
    (e : ViewEvent) : ViewInv (viewStep vb e) := by
  obtain ⟨hr, hw1, hw2, hh1, hh2⟩ := hv
  cases e with
  | pan dx dy => exact ⟨hr, hw1, hw2, hh1, hh2⟩
  | reset => exact initialViewBox_inv
  | wheel zo rx ry =>
    have hW4 : VBOX_W * 4 = 4000 := by norm_num [VBOX_W]
    have hH4 : VBOX_H * 4 = 2400 := by norm_num [VBOX_H]
    simp only [viewStep, ViewInv, hW4, hH4]
    set f : ℚ := if zo then 106 / 100 else 94 / 100 with hf
    refine ⟨?_, le_max_left _ _,
      max_le (by norm_num) (min_le_left _ _),
      le_max_left _ _,
      max_le (by norm_num) (min_le_left _ _)⟩
    rw [hr]
    have harg : 3 / 5 * vb.w * f = 3 / 5 * (vb.w * f) := by ring
    rw [harg, min_clamp_scale, max_clamp_scale]

theorem viewInv_of_reachable {vb : ViewBoxState}
    (h : ReachableView vb) : ViewInv vb := by
  induction h with
  | init => exact initialViewBox_inv
  | step vb e hr ih => exact viewStep_preserves_inv ih e

-- ══════════════════════════════════════════════════════════════════
-- Claim theorems
-- ══════════════════════════════════════════════════════════════════

/-- C1, counterexample. The claim says a node is admitted only if it is
an endpoint of a surviving edge, so no built node has zero built edges.
On entities [A: 100 mentions, C: 5 mentions] and the single raw pair
(A, C) with minMentions = 10, the builder admits A (A alone passes the
threshold) but builds no edge (C is not a node), so the built graph has
the node A with zero edges. -/
theorem node_admission_claim_counterexample :
    (buildGraph [entA, entC] [pairAC] 10).nodes.map GraphNode.id = ["A"] ∧
    (buildGraph [entA, entC] [pairAC] 10).links = [] := by
  decide

/-- C1, amended. For a nonempty raw entity list, an entity id appears
in the built node set if, and only if, its (last-wins) entity row
exists with mention count at least minMentions AND the id is an
endpoint of at least one raw co-occurrence pair — regardless of
whether that pair survives into the built edge set; built nodes with
zero built edges are therefore possible. -/
theorem node_admission_characterization (e : List EntityMentionCount)
    (p : List CoMention) (m : Nat) (he : e ≠ []) (x : String) :
    x ∈ (buildGraph e p m).nodes.map GraphNode.id ↔
      meetsMinMentions e m x = true ∧
        ∃ cm ∈ p, cm.entity_a_id = x ∨ cm.entity_b_id = x := by
  have h1 : e.isEmpty = false := by
    cases e with
    | nil => exact absurd rfl he
    | cons a t => rfl
  unfold buildGraph
  rw [h1]
  by_cases h2 : (buildGraphNodes e p m).isEmpty
  · rw [if_neg (by simp), if_pos h2]
    simp only [List.map_nil, List.not_mem_nil, false_iff, not_and]
    intro hme ⟨cm, hcm, hend⟩
    have hx : x ∈ nodeIds e p m := mem_nodeIds.mpr ⟨hme, cm, hcm, hend⟩
    have hx2 : x ∈ (buildGraphNodes e p m).map GraphNode.id :=
      mem_map_id_buildGraphNodes.mpr hx
    rw [List.isEmpty_iff.mp h2] at hx2
    exact absurd hx2 (by simp)
  · rw [if_neg (by simp), if_neg h2]
    exact mem_map_id_buildGraphNodes.trans mem_nodeIds

/-- C1, witness for the amended characterization at the counterexample
input: A is a built node because it passes minMentions and is an
endpoint of the raw pair (A, C). -/
theorem node_admission_characterization_witness :
    ([entA, entC] ≠ ([] : List EntityMentionCount)) ∧
    ("A" ∈ (buildGraph [entA, entC] [pairAC] 10).nodes.map GraphNode.id ↔
      meetsMinMentions [entA, entC] 10 "A" = true ∧
        ∃ cm ∈ [pairAC], cm.entity_a_id = "A" ∨ cm.entity_b_id = "A") :=
  ⟨by decide, node_admission_characterization [entA, entC] [pairAC] 10 (by decide) "A"⟩

/-- C2: the rendering radius of every built node is
5 + (log2(mentions + 1) / log2(maxMentions + 1)) * 18 with maxMentions
the snapshot maximum floored at 1 (definitions nodeRadius and
maxMentions), and node radius is monotone in the mention count within a
snapshot. -/
theorem node_radius_formula_and_monotone (e : List EntityMentionCount)
    (p : List CoMention) (m : Nat) (n1 n2 : GraphNode)
    (h1 : n1 ∈ (buildGraph e p m).nodes) (h2 : n2 ∈ (buildGraph e p m).nodes)
    (hlt : n2.mentions < n1.mentions) :
    nodeRadius n1.mentions (maxMentions e p m)
      = 5 + (Real.logb 2 (n1.mentions + 1) /
          Real.logb 2 (maxMentions e p m + 1)) * 18 ∧
    nodeRadius n2.mentions (maxMentions e p m)
      ≤ nodeRadius n1.mentions (maxMentions e p m) := by
  refine ⟨rfl, ?_⟩
  have hM : 1 ≤ maxMentions e p m := one_le_maxMentions e p m
  have hMr : (1 : ℝ) ≤ (maxMentions e p m : ℝ) := by exact_mod_cast hM
  have hL : (0 : ℝ) < Real.logb 2 (maxMentions e p m + 1) := by
    apply Real.logb_pos (by norm_num)
    linarith
  have hcast : (n2.mentions : ℝ) ≤ (n1.mentions : ℝ) := by
    exact_mod_cast le_of_lt hlt
  have hnum : Real.logb 2 (n2.mentions + 1) ≤ Real.logb 2 (n1.mentions + 1) := by
    apply Real.logb_le_logb_of_le (by norm_num)
    · positivity
    · linarith
  unfold nodeRadius
  have hdiv : Real.logb 2 (n2.mentions + 1) / Real.logb 2 (maxMentions e p m + 1)
      ≤ Real.logb 2 (n1.mentions + 1) / Real.logb 2 (maxMentions e p m + 1) :=
    (div_le_div_iff_of_pos_right hL).mpr hnum
  linarith

/-- C2, witness at the two-node snapshot [A: 100, B: 50] with the
single pair (A, B) and minMentions = 10. -/
theorem node_radius_formula_and_monotone_witness :
    (wNodeA ∈ (buildGraph [entA, entB] [pairAB] 10).nodes) ∧
    (wNodeB ∈ (buildGraph [entA, entB] [pairAB] 10).nodes) ∧
    (wNodeB.mentions < wNodeA.mentions) ∧
    (nodeRadius wNodeA.mentions (maxMentions [entA, entB] [pairAB] 10)
        = 5 + (Real.logb 2 (wNodeA.mentions + 1) /
            Real.logb 2 (maxMentions [entA, entB] [pairAB] 10 + 1)) * 18 ∧
     nodeRadius wNodeB.mentions (maxMentions [entA, entB] [pairAB] 10)
        ≤ nodeRadius wNodeA.mentions (maxMentions [entA, entB] [pairAB] 10)) :=
  ⟨by decide, by decide, by decide,
    node_radius_formula_and_monotone [entA, entB] [pairAB] 10 wNodeA wNodeB
      (by decide) (by decide) (by decide)⟩

/-- C3: no dangling edges — both endpoint ids of every built link are
ids of built nodes. -/
theorem no_dangling_edges (e : List EntityMentionCount) (p : List CoMention)
    (m : Nat) (l : GraphLink) (hl : l ∈ (buildGraph e p m).links) :
    l.sourceId ∈ (buildGraph e p m).nodes.map GraphNode.id ∧
    l.targetId ∈ (buildGraph e p m).nodes.map GraphNode.id := by
  by_cases h1 : e.isEmpty
  · unfold buildGraph at hl
    rw [if_pos h1] at hl
    exact absurd hl (by simp)
  · by_cases h2 : (buildGraphNodes e p m).isEmpty
    · unfold buildGraph at hl
      rw [if_neg h1, if_pos h2] at hl
      exact absurd hl (by simp)
    · unfold buildGraph at hl ⊢
      rw [if_neg h1, if_neg h2] at hl ⊢
      unfold buildGraphLinks at hl
      rcases List.mem_map.mp hl with ⟨cm, hcm, rfl⟩
      have hcm2 := List.take_subset 500 _ hcm
      rcases List.mem_filter.mp hcm2 with ⟨_, hcond⟩
      simp only [Bool.and_eq_true, decide_eq_true_eq] at hcond
      exact ⟨mem_map_id_buildGraphNodes.mpr hcond.1,
        mem_map_id_buildGraphNodes.mpr hcond.2⟩

/-- C3, witness at the snapshot [A: 100, B: 50] with the pair (A, B). -/
theorem no_dangling_edges_witness :
    ((⟨"A", "B", 10, 8⟩ : GraphLink) ∈ (buildGraph [entA, entB] [pairAB] 10).links) ∧
    ((⟨"A", "B", 10, 8⟩ : GraphLink).sourceId
        ∈ (buildGraph [entA, entB] [pairAB] 10).nodes.map GraphNode.id ∧
     (⟨"A", "B", 10, 8⟩ : GraphLink).targetId
        ∈ (buildGraph [entA, entB] [pairAB] 10).nodes.map GraphNode.id) :=
  ⟨by decide, no_dangling_edges [entA, entB] [pairAB] 10 ⟨"A", "B", 10, 8⟩ (by decide)⟩

/-- C4, counterexample. The claim says a raw input containing both
(A, B) and (B, A) produces at most one edge for the unordered pair
{A, B}; the builder maps every surviving raw pair to an edge without
unordered deduplication, so this input produces two. -/
theorem symmetry_dedup_counterexample :
    (buildGraph [entA, entB] [pairAB, pairBA] 10).links.countP
      (fun l => linkSpans l "A" "B") = 2 := by
  decide

/-- C4, amended. The builder emits exactly one edge per surviving raw
pair entry and performs no unordered-pair deduplication; consequently,
the built graph has at most one edge spanning an unordered pair {a, b}
whenever the raw input contains at most one entry covering {a, b} (in
either orientation), but reversed duplicates in the raw input produce
duplicate edges. -/
theorem edges_per_unordered_pair_bound (e : List EntityMentionCount)
    (p : List CoMention) (m : Nat) (a b : String)
    (h : p.countP (fun cm => pairSpans cm a b) ≤ 1) :
    (buildGraph e p m).links.countP (fun l => linkSpans l a b) ≤ 1 := by
  by_cases h1 : e.isEmpty
  · unfold buildGraph
    rw [if_pos h1]
    simp
  · by_cases h2 : (buildGraphNodes e p m).isEmpty
    · unfold buildGraph
      rw [if_neg h1, if_pos h2]
      simp
    · unfold buildGraph
      rw [if_neg h1, if_neg h2]
      show (buildGraphLinks e p m).countP _ ≤ 1
      unfold buildGraphLinks
      rw [List.countP_map]
      calc _ ≤ _ := (List.take_sublist 500 _).countP_le _
        _ ≤ List.countP (fun cm => pairSpans cm a b) p :=
            (List.filter_sublist p).countP_le _
        _ ≤ 1 := h

/-- C4, witness for the amended bound at a raw input listing the
unordered pair {A, B} once. -/
theorem edges_per_unordered_pair_bound_witness :
    ([pairAB].countP (fun cm => pairSpans cm "A" "B") ≤ 1) ∧
    ((buildGraph [entA, entB] [pairAB] 10).links.countP
      (fun l => linkSpans l "A" "B") ≤ 1) :=
  ⟨by decide, edges_per_unordered_pair_bound [entA, entB] [pairAB] 10 "A" "B" (by decide)⟩

/-- C5: the end-to-end example — pair threshold filter (modelled
get_co_mentions RPC) at minCoOccurrences = 5, then graph build at
minMentions = 10 — yields exactly the nodes {A, B} and the single edge
A–B. -/
theorem end_to_end_example :
    (buildGraph [entA, entB, entC] (getCoMentions [pairAB, pairBC] 5 500) 10).nodes.map
        GraphNode.id = ["A", "B"] ∧
    (buildGraph [entA, entB, entC] (getCoMentions [pairAB, pairBC] 5 500) 10).links
      = [⟨"A", "B", 10, 8⟩] := by
  decide

/-- C6: click disambiguation. From any state with no pending timeout
for node n, a click followed by the timeout firing (no second click in
the window) produces no navigation and exactly one selection toggle,
and a click followed by a second click within the window (so the
timeout is cleared and never fires) produces exactly one navigation
and leaves the selection as it was before the first click; neither
sequence produces both outcomes. -/
theorem click_disambiguation (s : ClickState) (n : String)
    (h : n ∉ s.clickTimeouts) :
    ((runClicks s [.click n, .fire n]).navigations = s.navigations ∧
     (runClicks s [.click n, .fire n]).selectedNode
        = (if s.selectedNode = some n then none else some n) ∧
     (runClicks s [.click n, .fire n]).clickTimeouts = s.clickTimeouts) ∧
    ((runClicks s [.click n, .click n]).navigations = s.navigations ++ [n] ∧
     (runClicks s [.click n, .click n]).selectedNode = s.selectedNode ∧
     (runClicks s [.click n, .click n]).clickTimeouts = s.clickTimeouts) := by
  have hadd : setAdd s.clickTimeouts n = s.clickTimeouts ++ [n] :=
    setAdd_of_not_mem h
  have hmem : n ∈ s.clickTimeouts ++ [n] := by simp
  have hdel : setDelete (s.clickTimeouts ++ [n]) n = s.clickTimeouts :=
    setDelete_append_self h
  simp [runClicks, clickStep, h, hadd, hmem, hdel]

/-- C6, witness from the idle interaction state and node A. -/
theorem click_disambiguation_witness :
    ("A" ∉ (⟨[], none, []⟩ : ClickState).clickTimeouts) ∧
    (((runClicks ⟨[], none, []⟩ [.click "A", .fire "A"]).navigations
          = (⟨[], none, []⟩ : ClickState).navigations ∧
      (runClicks ⟨[], none, []⟩ [.click "A", .fire "A"]).selectedNode
          = (if (⟨[], none, []⟩ : ClickState).selectedNode = some "A"
             then none else some "A") ∧
      (runClicks ⟨[], none, []⟩ [.click "A", .fire "A"]).clickTimeouts
          = (⟨[], none, []⟩ : ClickState).clickTimeouts) ∧
     ((runClicks ⟨[], none, []⟩ [.click "A", .click "A"]).navigations
          = (⟨[], none, []⟩ : ClickState).navigations ++ ["A"] ∧
      (runClicks ⟨[], none, []⟩ [.click "A", .click "A"]).selectedNode
          = (⟨[], none, []⟩ : ClickState).selectedNode ∧
      (runClicks ⟨[], none, []⟩ [.click "A", .click "A"]).clickTimeouts
          = (⟨[], none, []⟩ : ClickState).clickTimeouts)) :=
  ⟨by decide, click_disambiguation ⟨[], none, []⟩ "A" (by decide)⟩

/-- C7: stale-response rejection, for both fetch mechanisms. After two
requests are issued and the newer (generation + 2) resolves first, a
late resolution of the superseded request (generation + 1) is
discarded: the final state carries the newer data with loading
cleared, and equals the state in which the stale response never
arrived. The first half is the NameMentionChart filterVersionRef
mechanism, the second the NetworkGraph cancelled-flag effect. -/
theorem stale_response_rejection (cs : ChartFetchState)
    (d1 d2 : List EntityMentionCount) (c1 c2 : Nat)
    (gs : GraphFetchState) (cm1 cm2 : List CoMention)
    (en1 en2 : List EntityMentionCount) :
    ((runChartFetch cs [.issue, .issue,
        .resolve (cs.filterVersion + 2) d2 c2,
        .resolve (cs.filterVersion + 1) d1 c1]).entities = d2 ∧
     (runChartFetch cs [.issue, .issue,
        .resolve (cs.filterVersion + 2) d2 c2,
        .resolve (cs.filterVersion + 1) d1 c1]).totalCount = c2 ∧
     (runChartFetch cs [.issue, .issue,
        .resolve (cs.filterVersion + 2) d2 c2,
        .resolve (cs.filterVersion + 1) d1 c1]).loading = false ∧
     runChartFetch cs [.issue, .issue,
        .resolve (cs.filterVersion + 2) d2 c2,
        .resolve (cs.filterVersion + 1) d1 c1]
       = runChartFetch cs [.issue, .issue, .resolve (cs.filterVersion + 2) d2 c2]) ∧
    ((runGraphFetch gs [.issue, .issue,
        .resolve (gs.generation + 2) cm2 en2,
        .resolve (gs.generation + 1) cm1 en1]).rawCoMentions = cm2 ∧
     (runGraphFetch gs [.issue, .issue,
        .resolve (gs.generation + 2) cm2 en2,
        .resolve (gs.generation + 1) cm1 en1]).rawEntities = en2 ∧
     (runGraphFetch gs [.issue, .issue,
        .resolve (gs.generation + 2) cm2 en2,
        .resolve (gs.generation + 1) cm1 en1]).loading = false ∧
     runGraphFetch gs [.issue, .issue,
        .resolve (gs.generation + 2) cm2 en2,
        .resolve (gs.generation + 1) cm1 en1]
       = runGraphFetch gs [.issue, .issue, .resolve (gs.generation + 2) cm2 en2]) := by
  have e1 : cs.filterVersion + 1 + 1 = cs.filterVersion + 2 := rfl
  have e2 : cs.filterVersion + 2 ≠ cs.filterVersion + 1 := by omega
  have e3 : gs.generation + 1 + 1 = gs.generation + 2 := rfl
  have e4 : gs.generation + 2 ≠ gs.generation + 1 := by omega
  simp [runChartFetch, chartFetchStep, runGraphFetch, graphFetchStep, e2, e4]

/-- C8: detail-cache dedup and retryability. From a state in which id
is neither cached nor pending, two concurrent requests issue exactly
one underlying fetch; after a failure the id is pending no longer and
still uncached, and a renewed request issues a fresh fetch; after a
success the id is pending no longer and is cached. -/
theorem detail_cache_dedup_retry (s : DetailCacheState) (id : String)
    (data : List SectionBreakdown)
    (hc : mapHas s.cache id = false) (hp : id ∉ s.pending) :
    ((runDetail s [.request id, .request id]).fetchesIssued
        = s.fetchesIssued ++ [id]) ∧
    ((runDetail s [.request id, .request id, .fail id]).pending = s.pending ∧
     mapHas (runDetail s [.request id, .request id, .fail id]).cache id = false ∧
     (runDetail s [.request id, .request id, .fail id, .request id]).fetchesIssued
        = (runDetail s [.request id, .request id, .fail id]).fetchesIssued ++ [id]) ∧
    ((runDetail s [.request id, .request id, .succeed id data]).pending = s.pending ∧
     mapHas (runDetail s [.request id, .request id, .succeed id data]).cache id = true) := by
  have hadd : setAdd s.pending id = s.pending ++ [id] := setAdd_of_not_mem hp
  have hmem : id ∈ s.pending ++ [id] := by simp
  have hdel : setDelete (s.pending ++ [id]) id = s.pending :=
    setDelete_append_self hp
  simp [runDetail, detailStep, hc, hp, hadd, hmem, hdel, mapHas_mapSet_self]

/-- C8, witness from the empty cache state and node id A. -/
theorem detail_cache_dedup_retry_witness :
    (mapHas (⟨[], [], []⟩ : DetailCacheState).cache "A" = false) ∧
    ("A" ∉ (⟨[], [], []⟩ : DetailCacheState).pending) ∧
    (((runDetail ⟨[], [], []⟩ [.request "A", .request "A"]).fetchesIssued
        = (⟨[], [], []⟩ : DetailCacheState).fetchesIssued ++ ["A"]) ∧
     ((runDetail ⟨[], [], []⟩ [.request "A", .request "A", .fail "A"]).pending
        = (⟨[], [], []⟩ : DetailCacheState).pending ∧
      mapHas (runDetail ⟨[], [], []⟩ [.request "A", .request "A", .fail "A"]).cache "A"
        = false ∧
      (runDetail ⟨[], [], []⟩
          [.request "A", .request "A", .fail "A", .request "A"]).fetchesIssued
        = (runDetail ⟨[], [], []⟩
            [.request "A", .request "A", .fail "A"]).fetchesIssued ++ ["A"]) ∧
     ((runDetail ⟨[], [], []⟩ [.request "A", .request "A", .succeed "A" []]).pending
        = (⟨[], [], []⟩ : DetailCacheState).pending ∧
      mapHas (runDetail ⟨[], [], []⟩
          [.request "A", .request "A", .succeed "A" []]).cache "A" = true)) :=
  ⟨by decide, by decide,
    detail_cache_dedup_retry ⟨[], [], []⟩ "A" [] (by decide) (by decide)⟩

/-- C9: degenerate input — an empty entity list, or an empty surviving
pair list, yields the explicitly empty graph (buildGraph is a total
function, so no input throws). -/
theorem degenerate_input_empty_graph (e : List EntityMentionCount)
    (p : List CoMention) (m : Nat) (h : e = [] ∨ p = []) :
    buildGraph e p m = { nodes := [], links := [] } := by
  rcases h with rfl | rfl
  · rfl
  · unfold buildGraph
    by_cases he : e.isEmpty
    · rw [if_pos he]
    · rw [if_neg he, if_pos (show (buildGraphNodes e [] m).isEmpty = true from rfl)]

/-- C9, witness at an empty entity list with a nonempty pair list. -/
theorem degenerate_input_empty_graph_witness :
    (([] : List EntityMentionCount) = [] ∨ [pairAB] = ([] : List CoMention)) ∧
    buildGraph [] [pairAB] 10 = { nodes := [], links := [] } :=
  ⟨Or.inl rfl, degenerate_input_empty_graph [] [pairAB] 10 (Or.inl rfl)⟩

/-- C10: viewport invariant. Every reachable viewBox keeps the 3/5
aspect (height = 3/5 width) with width in [200, 4000] and height in
[120, 2400]; pan changes only the x/y offsets, reset restores the
initial 1000 by 600 box, and a wheel zoom scales width and height by
one common factor. -/
theorem viewBox_invariant (vb : ViewBoxState) (hr : ReachableView vb)
    (zo : Bool) (rx ry dx dy : ℚ) :
    (vb.h = 3 / 5 * vb.w ∧ 200 ≤ vb.w ∧ vb.w ≤ 4000 ∧
      120 ≤ vb.h ∧ vb.h ≤ 2400) ∧
    (viewStep vb (.pan dx dy)).w = vb.w ∧
    (viewStep vb (.pan dx dy)).h = vb.h ∧
    viewStep vb .reset = initialViewBox ∧
    (viewStep vb (.wheel zo rx ry)).h * vb.w
      = (viewStep vb (.wheel zo rx ry)).w * vb.h := by
  have hv := viewInv_of_reachable hr
  obtain ⟨hasp, hw1, hw2, hh1, hh2⟩ := hv
  have hv2 := viewStep_preserves_inv ⟨hasp, hw1, hw2, hh1, hh2⟩ (.wheel zo rx ry)
  refine ⟨⟨hasp, hw1, hw2, hh1, hh2⟩, rfl, rfl, rfl, ?_⟩
  rw [hv2.1, hasp]
  ring

/-- C10, witness at the initial viewBox. -/
theorem viewBox_invariant_witness :
    ReachableView initialViewBox ∧
    ((initialViewBox.h = 3 / 5 * initialViewBox.w ∧ 200 ≤ initialViewBox.w ∧
        initialViewBox.w ≤ 4000 ∧ 120 ≤ initialViewBox.h ∧
        initialViewBox.h ≤ 2400) ∧
     (viewStep initialViewBox (.pan 7 9)).w = initialViewBox.w ∧
     (viewStep initialViewBox (.pan 7 9)).h = initialViewBox.h ∧
     viewStep initialViewBox .reset = initialViewBox ∧
     (viewStep initialViewBox (.wheel true 0 0)).h * initialViewBox.w
       = (viewStep initialViewBox (.wheel true 0 0)).w * initialViewBox.h) :=
  ⟨ReachableView.init, viewBox_invariant initialViewBox ReachableView.init true 0 0 7 9⟩

end EpsteinDashboard
